import Mathlib

/-!
Shallow embedding of the pathio storage-abstraction layer: path parsing and
classification, remote connection resolution, region lookup, write/read over
an explicit store state, existence checks, paginated-listing merge, and the
in-memory test double. Definitions are translated from the Go source in
pathio.go and pathiomock.go; theorems settle the specification claims.
-/

namespace Pathio

/-- The fixed remote scheme marker, the characters of the literal used by
the prefix check in Reader/Write/Delete/ListFiles/Exists. -/
def s3Scheme : List Char := ['s', '3', ':', '/', '/']

/-- strings.HasPrefix(path, the scheme literal): classifies a path as remote. -/
def isS3Path (path : List Char) : Bool := s3Scheme.isPrefixOf path

/-- The distinct error values this layer itself constructs (each one a
distinct fmt.Errorf in the source); backend errors carry their message. -/
inductive PathioError where
  | seekFailed (offset : Int) (seekErr : Option String)
  | invalidPath (path : List Char)
  | regionLookupFailed (bucket : List Char) (err : String)
  | objectMissing (bucket key : List Char)
  | fileMissing (path : List Char)
deriving DecidableEq

/-- Split a character list at the first occurrence of the separator:
the pair (before, after), or none when the separator does not occur. -/
def breakAtSep (sep : Char) : List Char → Option (List Char × List Char)
  | [] => none
  | c :: rest =>
    if c = sep then some ([], rest)
    else
      match breakAtSep sep rest with
      | none => none
      | some (pre, post) => some (c :: pre, post)

/-- Go strings.SplitN(s, sep, n) for a one-character separator: at most n
substrings, the last one containing the unsplit remainder. -/
def splitN (sep : Char) : Nat → List Char → List (List Char)
  | 0, _ => []
  | 1, s => [s]
  | n + 2, s =>
    match breakAtSep sep s with
    | none => [s]
    | some (p, rest) => p :: splitN sep (n + 1) rest

/-- parseS3Path from pathio.go: SplitN(path, slash, 4); fewer than 4 parts is
an invalid s3 path; otherwise bucket is part 2 and the key is part 3,
everything after the third slash. -/
def parseS3Path (path : List Char) : Except PathioError (List Char × List Char) :=
  let stringsArray := splitN '/' 4 path
  if stringsArray.length < 4 then Except.error (PathioError.invalidPath path)
  else Except.ok (stringsArray.getD 2 [], stringsArray.getD 3 [])

/-- The fixed default region constant from pathio.go. -/
def defaultLocation : List Char := ['u', 's', '-', 'e', 'a', 's', 't', '-', '1']

/-- The fixed server-side-encryption algorithm identifier from pathio.go. -/
def aesAlgo : List Char := ['A', 'E', 'S', '2', '5', '6']

/-- getRegionForBucket from pathio.go, with the store's GetBucketLocation
response passed in explicitly: a lookup failure is wrapped together with the
bucket name; an empty location constraint resolves to the default region. -/
def getRegionForBucket (resp : Except String (List Char)) (name : List Char) :
    Except PathioError (List Char) :=
  match resp with
  | Except.error e => Except.error (PathioError.regionLookupFailed name e)
  | Except.ok loc => if loc = [] then Except.ok defaultLocation else Except.ok loc

/-- The s3Connection descriptor from pathio.go: the bound handler is
represented by the region it was constructed for. -/
structure s3Connection where
  bucket : List Char
  key : List Char
  region : List Char
deriving DecidableEq

/-- s3ConnectionInformation from pathio.go: parse the path, then, when no
region override is supplied, resolve the bucket region through the store
(the lookup argument stands for the GetBucketLocation call). -/
def s3ConnectionInformation (lookup : List Char → Except String (List Char))
    (regionArg path : List Char) : Except PathioError s3Connection :=
  match parseS3Path path with
  | Except.error e => Except.error e
  | Except.ok (bucket, key) =>
    if regionArg = [] then
      match getRegionForBucket (lookup bucket) bucket with
      | Except.error e => Except.error e
      | Except.ok region => Except.ok ⟨bucket, key, region⟩
    else Except.ok ⟨bucket, key, regionArg⟩

/-- The Client configuration from pathio.go (the context and provided AWS
config do not affect the behaviour modelled here). -/
structure Client where
  disableS3Encryption : Bool
  Region : List Char
deriving DecidableEq

/-- DefaultClient from pathio.go: constructed with only the context set, so
both configuration fields hold their zero values. -/
def DefaultClient : Client := { disableS3Encryption := false, Region := [] }

/-- An io.ReadSeeker, reduced to what WriteReader observes: the outcome of
Seek(0, SeekStart) — a possible error and the returned offset — and the
bytes readable from the start of the stream. -/
structure ReadSeeker where
  seekErr : Option String
  seekOffset : Int
  data : List Nat
deriving DecidableEq

/-- bytes.NewReader(b): a fresh in-memory reader over b; seeking it to the
start always succeeds at offset 0 and it reads exactly b. -/
def bytesNewReader (b : List Nat) : ReadSeeker :=
  { seekErr := none, seekOffset := 0, data := b }

/-- The fields of s3.PutObjectInput that writeToS3 populates. -/
structure PutObjectInput where
  Bucket : List Char
  Key : List Char
  Body : List Nat
  ServerSideEncryption : Option (List Char)
deriving DecidableEq

/-- writeToS3 from pathio.go, as the PutObjectInput it hands to the store:
bucket, key and body always; the server-side-encryption attribute only when
encryption is not disabled. -/
def writeToS3 (s3Conn : s3Connection) (input : ReadSeeker)
    (disableEncryption : Bool) : PutObjectInput :=
  let params : PutObjectInput :=
    { Bucket := s3Conn.bucket, Key := s3Conn.key, Body := input.data,
      ServerSideEncryption := none }
  if !disableEncryption then { params with ServerSideEncryption := some aesAlgo }
  else params

/-- The world both backends write into: the object store as an association
list over (bucket, key), and the local filesystem as one over paths. -/
structure Store where
  s3Objects : List ((List Char × List Char) × List Nat)
  localFiles : List (List Char × List Nat)
deriving DecidableEq

/-- Association-list lookup (most recent binding wins). -/
def alookup {α β : Type} [DecidableEq α] (k : α) : List (α × β) → Option β
  | [] => none
  | (k2, v) :: rest => if k = k2 then some v else alookup k rest

/-- The store effect of a successful PutObject call. -/
def putObject (st : Store) (params : PutObjectInput) : Store :=
  { st with s3Objects := ((params.Bucket, params.Key), params.Body) :: st.s3Objects }

/-- writeToLocalFile from pathio.go: create/truncate the target and copy the
full input stream into it. -/
def writeToLocalFile (st : Store) (path : List Char) (input : ReadSeeker) : Store :=
  { st with localFiles := (path, input.data) :: st.localFiles }

/-- Client.WriteReader from pathio.go: reset the input to offset 0, failing
when the seek errors or does not land at 0; then dispatch on the scheme
prefix to the S3 or the local write. -/
def Client.WriteReader (c : Client) (lookup : List Char → Except String (List Char))
    (st : Store) (path : List Char) (input : ReadSeeker) : Except PathioError Store :=
  if input.seekErr ≠ none ∨ input.seekOffset ≠ 0 then
    Except.error (PathioError.seekFailed input.seekOffset input.seekErr)
  else if isS3Path path then
    match s3ConnectionInformation lookup c.Region path with
    | Except.error e => Except.error e
    | Except.ok s3Conn =>
      Except.ok (putObject st (writeToS3 s3Conn input c.disableS3Encryption))
  else Except.ok (writeToLocalFile st path input)

/-- Client.Write from pathio.go: delegate to WriteReader over a fresh
bytes.Reader on the input byte slice. -/
def Client.Write (c : Client) (lookup : List Char → Except String (List Char))
    (st : Store) (path : List Char) (input : List Nat) : Except PathioError Store :=
  Client.WriteReader c lookup st path (bytesNewReader input)

/-- s3FileReader from pathio.go: GetObject on the connection, returning the
body unmodified. -/
def s3FileReader (st : Store) (s3Conn : s3Connection) : Except PathioError (List Nat) :=
  match alookup (s3Conn.bucket, s3Conn.key) st.s3Objects with
  | some body => Except.ok body
  | none => Except.error (PathioError.objectMissing s3Conn.bucket s3Conn.key)

/-- Client.Reader from pathio.go: dispatch on the scheme prefix to the S3
GetObject or to os.Open on the local filesystem. -/
def Client.Reader (c : Client) (lookup : List Char → Except String (List Char))
    (st : Store) (path : List Char) : Except PathioError (List Nat) :=
  if isS3Path path then
    match s3ConnectionInformation lookup c.Region path with
    | Except.error e => Except.error e
    | Except.ok s3Conn => s3FileReader st s3Conn
  else
    match alookup path st.localFiles with
    | some body => Except.ok body
    | none => Except.error (PathioError.fileMissing path)

/-- A smithy.APIError as observed by existsS3's error handling: whether the
error matches the APIError interface, whether it further matches the
s3 NotFound type, and its message. -/
structure SmithyErr where
  isAPI : Bool
  isNotFound : Bool
  msg : String
deriving DecidableEq

/-- existsS3 from pathio.go, over the outcome of the HeadObject call:
mirror the nested errors.As dispatch of the source. -/
def existsS3 (headErr : Option SmithyErr) : Bool × Option SmithyErr :=
  match headErr with
  | none => (true, none)
  | some e =>
    if e.isAPI then
      if e.isNotFound then (false, none) else (false, some e)
    else (false, some e)

/-- The outcome of os.Stat as existsLocal observes it. -/
inductive StatErr where
  | notExist
  | statFailed (msg : String)
deriving DecidableEq

/-- existsLocal from pathio.go: os.IsNotExist maps to (false, nil); then the
source returns (err == nil, err). -/
def existsLocal (statErr : Option StatErr) : Bool × Option StatErr :=
  match statErr with
  | some StatErr.notExist => (false, none)
  | none => (true, none)
  | some e => (false, some e)

/-- One page of a ListObjectsV2 response as lsS3 consumes it: common
prefixes then content keys, in store-returned order. -/
structure ListPage where
  commonPrefixes : List String
  contents : List String
deriving DecidableEq

/-- elementInSlice from pathio.go. -/
def elementInSlice (slice : List String) (elem : String) : Bool :=
  match slice with
  | [] => false
  | v :: rest => if elem = v then true else elementInSlice rest elem

/-- The per-page body of lsS3's loop: drop the first common-prefix when it
already occurs in the accumulated results, then append the remaining
prefixes followed by the page's contents. -/
def lsS3Step (finalResults : List String) (page : ListPage) : List String :=
  let cps :=
    match page.commonPrefixes with
    | [] => []
    | p :: rest => if elementInSlice finalResults p then rest else p :: rest
  finalResults ++ (cps ++ page.contents)

/-- lsS3 from pathio.go, over the pages ListAllObjects returned: fold the
per-page merge over an empty accumulator. -/
def lsS3 (pages : List ListPage) : List String :=
  pages.foldl lsS3Step []

/-- MockClient from pathiomock.go: the in-memory filesystem map and the
three injectable error fields. -/
structure MockClient where
  Filesystem : List (String × String)
  WriteErr : Option String
  ReaderErr : Option String
  WriteReaderErr : Option String
deriving DecidableEq

deriving instance DecidableEq for Except

/-- The io.ReadSeeker a MockClient.WriteReader call consumes, reduced to the
outcome of ioutil.ReadAll on it. -/
structure MockReadSeeker where
  readAllResult : Except String String
deriving DecidableEq

/-- MockClient.Reader from pathiomock.go: the injected ReaderErr if set,
otherwise a lookup in the in-memory map. -/
def MockClient.Reader (m : MockClient) (path : String) : Except String String :=
  match m.ReaderErr with
  | some e => Except.error e
  | none =>
    match alookup path m.Filesystem with
    | some data => Except.ok data
    | none => Except.error ("File at " ++ path ++ " not found")

/-- MockClient.Write from pathiomock.go: the injected WriteErr if set
(map untouched), otherwise store the input; returns the new state and the
returned error. -/
def MockClient.Write (m : MockClient) (path input : String) :
    MockClient × Option String :=
  match m.WriteErr with
  | some e => (m, some e)
  | none => ({ m with Filesystem := (path, input) :: m.Filesystem }, none)

/-- MockClient.WriteReader from pathiomock.go, translated exactly as
written: ReadAll the input and, on success, store the data — the
WriteReaderErr field is never consulted by the source. -/
def MockClient.WriteReader (m : MockClient) (path : String)
    (input : MockReadSeeker) : MockClient × Option String :=
  match input.readAllResult with
  | Except.error e => (m, some e)
  | Except.ok data => ({ m with Filesystem := (path, data) :: m.Filesystem }, none)

/-- Whether a result is this layer's seek-reset failure. -/
def isSeekFailure {α : Type} : Except PathioError α → Bool
  | Except.error (PathioError.seekFailed _ _) => true
  | _ => false

theorem splitN_four (sep : Char) (s : List Char) :
    splitN sep 4 s =
      match breakAtSep sep s with
      | none => [s]
      | some (p, rest) => p :: splitN sep 3 rest := rfl

theorem splitN_three (sep : Char) (s : List Char) :
    splitN sep 3 s =
      match breakAtSep sep s with
      | none => [s]
      | some (p, rest) => p :: splitN sep 2 rest := rfl

theorem splitN_two (sep : Char) (s : List Char) :
    splitN sep 2 s =
      match breakAtSep sep s with
      | none => [s]
      | some (p, rest) => p :: splitN sep 1 rest := rfl

theorem splitN_one (sep : Char) (s : List Char) : splitN sep 1 s = [s] := rfl

theorem breakAtSep_append (sep : Char) (xs ys : List Char) (h : sep ∉ xs) :
    breakAtSep sep (xs ++ sep :: ys) = some (xs, ys) := by
  induction xs with
  | nil => simp [breakAtSep]
  | cons c rest ih =>
    have hc : ¬(c = sep) := by
      intro hEq
      exact h (hEq ▸ List.mem_cons_self c rest)
    have hrest : sep ∉ rest := fun hm => h (List.mem_cons_of_mem c hm)
    simp only [List.cons_append, breakAtSep, if_neg hc, List.append_eq, ih hrest]

theorem splitN_s3 (bucket key : List Char) (hb : ('/' : Char) ∉ bucket) :
    splitN '/' 4 (s3Scheme ++ (bucket ++ '/' :: key)) =
      [['s', '3', ':'], [], bucket, key] := by
  have e1 : breakAtSep '/' (s3Scheme ++ (bucket ++ '/' :: key)) =
      some (['s', '3', ':'], '/' :: (bucket ++ '/' :: key)) := by
    have h := breakAtSep_append '/' ['s', '3', ':']
      ('/' :: (bucket ++ '/' :: key)) (by decide)
    simpa [s3Scheme] using h
  have e2 : breakAtSep '/' ('/' :: (bucket ++ '/' :: key)) =
      some ([], bucket ++ '/' :: key) := by
    simp [breakAtSep]
  have e3 : breakAtSep '/' (bucket ++ '/' :: key) = some (bucket, key) :=
    breakAtSep_append '/' bucket key hb
  simp only [splitN_four, e1, splitN_three, e2, splitN_two, e3, splitN_one]

/-- C2: a remote-scheme path splits on the separator into at most 4 parts;
the container is the third part and the key is everything after the third
slash, unmodified even when it contains slashes; a path with fewer than 4
parts fails with the invalid-path error, and the connection resolver then
returns that error for every lookup, so no backend call is made. -/
theorem parseS3Path_spec :
    (∀ bucket key : List Char, ('/' : Char) ∉ bucket →
      parseS3Path (s3Scheme ++ (bucket ++ '/' :: key)) = Except.ok (bucket, key)) ∧
    (∀ path : List Char, (splitN '/' 4 path).length < 4 →
      parseS3Path path = Except.error (PathioError.invalidPath path) ∧
      ∀ (lookup : List Char → Except String (List Char)) (regionArg : List Char),
        s3ConnectionInformation lookup regionArg path =
          Except.error (PathioError.invalidPath path)) := by
  constructor
  · intro bucket key hb
    simp [parseS3Path, splitN_s3 bucket key hb]
  · intro path h
    have hp : parseS3Path path = Except.error (PathioError.invalidPath path) := by
      simp [parseS3Path, if_pos h]
    refine ⟨hp, ?_⟩
    intro lookup regionArg
    simp [s3ConnectionInformation, hp]

/-- Witness for C2 at a slash-containing key and at a keyless path. -/
theorem parseS3Path_spec_witness :
    parseS3Path (s3Scheme ++ (['b'] ++ '/' :: ['d', '/', 'p'])) =
      Except.ok (['b'], ['d', '/', 'p']) ∧
    parseS3Path ['s', '3', ':', '/', '/'] =
      Except.error (PathioError.invalidPath ['s', '3', ':', '/', '/']) := by
  exact ⟨parseS3Path_spec.1 ['b'] ['d', '/', 'p'] (by decide),
    (parseS3Path_spec.2 ['s', '3', ':', '/', '/'] (by decide)).1⟩

/-- Counterexample to C3: the parser accepts remote paths whose key
(s3://b/) or container (s3:///k) is empty, so acceptance does not imply
both parts are non-empty. -/
theorem parseS3Path_accepts_empty_segments :
    parseS3Path ['s', '3', ':', '/', '/', 'b', '/'] = Except.ok (['b'], []) ∧
    parseS3Path ['s', '3', ':', '/', '/', '/', 'k'] = Except.ok ([], ['k']) := by
  exact ⟨by decide, by decide⟩

/-- C3 (amended): a remote path that does not split into 4 parts is
rejected with the invalid-path error before any network call — the
resolver's result does not depend on the region-lookup backend; non-empty
container and key are not required for acceptance. -/
theorem s3Path_rejected_before_network :
    ∀ path : List Char, (splitN '/' 4 path).length < 4 →
      ∀ (lookup lookup2 : List Char → Except String (List Char))
        (regionArg : List Char),
        s3ConnectionInformation lookup regionArg path =
          Except.error (PathioError.invalidPath path) ∧
        s3ConnectionInformation lookup regionArg path =
          s3ConnectionInformation lookup2 regionArg path := by
  intro path h lookup lookup2 regionArg
  have hp : parseS3Path path = Except.error (PathioError.invalidPath path) := by
    simp [parseS3Path, if_pos h]
  constructor <;> simp [s3ConnectionInformation, hp]

/-- Witness for the amended C3 at the container-only path s3://b. -/
theorem s3Path_rejected_before_network_witness :
    (splitN '/' 4 ['s', '3', ':', '/', '/', 'b']).length < 4 ∧
    s3ConnectionInformation (fun _ => Except.ok defaultLocation) []
        ['s', '3', ':', '/', '/', 'b'] =
      Except.error (PathioError.invalidPath ['s', '3', ':', '/', '/', 'b']) := by
  refine ⟨by decide, ?_⟩
  exact (s3Path_rejected_before_network ['s', '3', ':', '/', '/', 'b'] (by decide)
    (fun _ => Except.ok defaultLocation) (fun _ => Except.ok defaultLocation) []).1

/-- C5: Exists normalizes not-found to a boolean on both backends — a
HeadObject error matching the store's NotFound type maps to (false, nil),
any other error to (false, that error), success to (true, nil); likewise a
not-exists stat result locally. -/
theorem exists_notFound_normalized :
    (existsS3 none = (true, none)) ∧
    (∀ e : SmithyErr, e.isAPI = true → e.isNotFound = true →
      existsS3 (some e) = (false, none)) ∧
    (∀ e : SmithyErr, e.isAPI = false ∨ e.isNotFound = false →
      existsS3 (some e) = (false, some e)) ∧
    (existsLocal none = (true, none)) ∧
    (existsLocal (some StatErr.notExist) = (false, none)) ∧
    (∀ m : String, existsLocal (some (StatErr.statFailed m)) =
      (false, some (StatErr.statFailed m))) := by
  refine ⟨rfl, ?_, ?_, rfl, rfl, fun m => rfl⟩
  · intro e h1 h2
    simp [existsS3, h1, h2]
  · intro e h
    rcases h with h | h <;> simp [existsS3, h]

/-- Witness for C5 at a NotFound head error and at a non-API error. -/
theorem exists_notFound_normalized_witness :
    existsS3 (some ⟨true, true, "nf"⟩) = (false, none) ∧
    existsS3 (some ⟨false, false, "boom"⟩) =
      (false, some ⟨false, false, "boom"⟩) := by
  exact ⟨exists_notFound_normalized.2.1 ⟨true, true, "nf"⟩ rfl rfl,
    exists_notFound_normalized.2.2.1 ⟨false, false, "boom"⟩ (Or.inl rfl)⟩

/-- C6: a successful bucket-location response with an empty constraint
resolves to the fixed default region, and a lookup failure is returned as
an error wrapping the underlying store error together with the bucket
name. -/
theorem getRegionForBucket_spec :
    (∀ name : List Char,
      getRegionForBucket (Except.ok []) name = Except.ok defaultLocation) ∧
    (∀ (name : List Char) (e : String),
      getRegionForBucket (Except.error e) name =
        Except.error (PathioError.regionLookupFailed name e)) := by
  exact ⟨fun name => rfl, fun name e => rfl⟩

/-- C7: the put-object call carries the server-side-encryption attribute,
set to the fixed algorithm identifier, exactly when the client's
encryption-disable flag is false; the default client has encryption
enabled and no region override. -/
theorem writeToS3_encryption_spec :
    (∀ (s3Conn : s3Connection) (input : ReadSeeker),
      (writeToS3 s3Conn input false).ServerSideEncryption = some aesAlgo) ∧
    (∀ (s3Conn : s3Connection) (input : ReadSeeker),
      (writeToS3 s3Conn input true).ServerSideEncryption = none) ∧
    DefaultClient.disableS3Encryption = false ∧ DefaultClient.Region = [] := by
  exact ⟨fun _ _ => rfl, fun _ _ => rfl, rfl, rfl⟩

/-- C9: MockClient.WriteReader never consults the injected WriteReaderErr
field — with it set, the call still stores the data in the map and returns
no error, contrary to the field's documented purpose. -/
theorem mockWriteReader_ignores_injected_error :
    MockClient.WriteReader ⟨[], none, none, some "injected"⟩ "p"
        ⟨Except.ok "data"⟩ =
      (⟨[("p", "data")], none, none, some "injected"⟩, none) := rfl

theorem elementInSlice_eq_true_iff (l : List String) (x : String) :
    elementInSlice l x = true ↔ x ∈ l := by
  induction l with
  | nil => simp [elementInSlice]
  | cons v rest ih =>
    by_cases h : x = v
    · simp [elementInSlice, h]
    · simp [elementInSlice, h, ih]

/-- C1: per page, when the first common-prefix is already among the
accumulated results — in particular when it equals the last accumulated
common-prefix — exactly that entry is dropped before appending; for two
successive pages sharing the boundary prefix, the merged listing keeps the
boundary prefix exactly once, ordered as page-1 prefixes, page-1 contents,
page-2 remaining prefixes, page-2 contents. -/
theorem lsS3_dedup :
    (∀ (acc : List String) (p : String) (rest contents : List String),
      p ∈ acc →
      lsS3Step acc ⟨p :: rest, contents⟩ = acc ++ (rest ++ contents)) ∧
    (∀ (ps1 cs1 rest2 cs2 : List String) (q : String),
      ps1.getLast? = some q →
      ps1.count q = 1 →
      q ∉ cs1 → q ∉ rest2 → q ∉ cs2 →
      lsS3 [⟨ps1, cs1⟩, ⟨q :: rest2, cs2⟩] = ps1 ++ cs1 ++ rest2 ++ cs2 ∧
      (ps1 ++ cs1 ++ rest2 ++ cs2).count q = 1) := by
  constructor
  · intro acc p rest contents hmem
    have he : elementInSlice acc p = true := (elementInSlice_eq_true_iff acc p).mpr hmem
    simp [lsS3Step, he]
  · intro ps1 cs1 rest2 cs2 q hlast hcount hc1 hr2 hc2
    have hmem : q ∈ ps1 := List.mem_of_getLast?_eq_some hlast
    obtain ⟨v, vs, rfl⟩ : ∃ v vs, ps1 = v :: vs := by
      cases ps1 with
      | nil => simp at hlast
      | cons v vs => exact ⟨v, vs, rfl⟩
    have step1 : lsS3Step [] ⟨v :: vs, cs1⟩ = (v :: vs) ++ cs1 := by
      simp [lsS3Step, elementInSlice]
    have hq : elementInSlice (v :: (vs ++ cs1)) q = true := by
      have hm := (elementInSlice_eq_true_iff ((v :: vs) ++ cs1) q).mpr
        (List.mem_append_left _ hmem)
      simpa using hm
    have step2 : lsS3Step ((v :: vs) ++ cs1) ⟨q :: rest2, cs2⟩ =
        ((v :: vs) ++ cs1) ++ (rest2 ++ cs2) := by
      simp [lsS3Step, hq]
    have hres : lsS3 [⟨v :: vs, cs1⟩, ⟨q :: rest2, cs2⟩] =
        ((v :: vs) ++ cs1) ++ (rest2 ++ cs2) := by
      simp only [lsS3, List.foldl_cons, List.foldl_nil, step1, step2]
    have hzero1 : cs1.count q = 0 := List.count_eq_zero.mpr hc1
    have hzero2 : rest2.count q = 0 := List.count_eq_zero.mpr hr2
    have hzero3 : cs2.count q = 0 := List.count_eq_zero.mpr hc2
    constructor
    · rw [hres]
      simp [List.append_assoc]
    · have hz : (cs1 ++ (rest2 ++ cs2)).count q = 0 := by
        simp [List.count_append, hzero1, hzero2, hzero3]
      have h4 : ((v :: vs) ++ (cs1 ++ (rest2 ++ cs2))).count q = 1 := by
        rw [List.count_append, hcount, hz]
      calc ((v :: vs) ++ cs1 ++ rest2 ++ cs2).count q
          = ((v :: vs) ++ (cs1 ++ (rest2 ++ cs2))).count q := by
            simp [List.append_assoc]
        _ = 1 := h4

/-- Witness for C1 on two concrete pages sharing the boundary prefix. -/
theorem lsS3_dedup_witness :
    (["a/", "b/"] : List String).getLast? = some "b/" ∧
    lsS3 [⟨["a/", "b/"], ["x"]⟩, ⟨["b/", "c/"], ["y"]⟩] =
      ["a/", "b/", "x", "c/", "y"] ∧
    (["a/", "b/", "x", "c/", "y"] : List String).count "b/" = 1 := by
  have h := lsS3_dedup.2 ["a/", "b/"] ["x"] ["c/"] ["y"] "b/" (by decide)
    (by decide) (by decide) (by decide) (by decide)
  have he : (["a/", "b/"] ++ ["x"] ++ ["c/"] ++ ["y"] : List String) =
      ["a/", "b/", "x", "c/", "y"] := by decide
  exact ⟨by decide, h.1.trans he, he ▸ h.2⟩

theorem parseS3Path_error_shape (path : List Char) (e : PathioError)
    (h : parseS3Path path = Except.error e) : e = PathioError.invalidPath path := by
  simp only [parseS3Path] at h
  split at h
  · injection h with h1
    exact h1.symm
  · simp at h

theorem getRegionForBucket_error_shape (resp : Except String (List Char))
    (name : List Char) (e : PathioError)
    (h : getRegionForBucket resp name = Except.error e) :
    ∃ m, e = PathioError.regionLookupFailed name m := by
  cases resp with
  | error m =>
    simp only [getRegionForBucket] at h
    injection h with h1
    exact ⟨m, h1.symm⟩
  | ok loc =>
    simp only [getRegionForBucket] at h
    split at h <;> simp at h

theorem s3ConnectionInformation_error_shape
    (lookup : List Char → Except String (List Char)) (regionArg path : List Char)
    (e : PathioError)
    (h : s3ConnectionInformation lookup regionArg path = Except.error e) :
    e = PathioError.invalidPath path ∨
      ∃ b m, e = PathioError.regionLookupFailed b m := by
  cases hp : parseS3Path path with
  | error e2 =>
    simp only [s3ConnectionInformation, hp] at h
    injection h with h1
    left
    rw [← h1]
    exact parseS3Path_error_shape path e2 hp
  | ok bk =>
    obtain ⟨b, k⟩ := bk
    simp only [s3ConnectionInformation, hp] at h
    by_cases hr : regionArg = []
    · rw [if_pos hr] at h
      cases hg : getRegionForBucket (lookup b) b with
      | error e3 =>
        simp only [hg] at h
        injection h with h1
        obtain ⟨m, rfl⟩ := getRegionForBucket_error_shape (lookup b) b e3 hg
        right
        exact ⟨b, m, h1.symm⟩
      | ok region =>
        simp only [hg] at h
        simp at h
    · rw [if_neg hr] at h
      simp at h

theorem writeReader_seek_ok_aux (c : Client)
    (lookup : List Char → Except String (List Char)) (st : Store)
    (path : List Char) (input : ReadSeeker)
    (h1 : input.seekErr = none) (h2 : input.seekOffset = 0) :
    isSeekFailure (Client.WriteReader c lookup st path input) = false := by
  unfold Client.WriteReader
  rw [if_neg (by simp [h1, h2])]
  by_cases hs : isS3Path path = true
  · simp only [hs, if_true]
    cases hc : s3ConnectionInformation lookup c.Region path with
    | error e =>
      simp only [hc]
      rcases s3ConnectionInformation_error_shape lookup c.Region path e hc with
        hsh | ⟨b, m, hsh⟩ <;> subst hsh <;> simp [isSeekFailure]
    | ok s3Conn => simp [hc, isSeekFailure]
  · simp [hs, isSeekFailure]

/-- C4: WriteReader fails with the seek-failure error — before any backend
write, for Local and Remote paths alike — exactly when the input's
seek-to-start errors or does not return offset 0; when the seek lands at 0
with no error the call never fails with the seek-failure error. -/
theorem writeReader_seek_contract :
    ∀ (c : Client) (lookup : List Char → Except String (List Char)) (st : Store)
      (path : List Char) (input : ReadSeeker),
      (input.seekErr = none ∧ input.seekOffset = 0 →
        isSeekFailure (Client.WriteReader c lookup st path input) = false) ∧
      (input.seekErr ≠ none ∨ input.seekOffset ≠ 0 →
        Client.WriteReader c lookup st path input =
          Except.error (PathioError.seekFailed input.seekOffset input.seekErr)) := by
  intro c lookup st path input
  constructor
  · rintro ⟨h1, h2⟩
    exact writeReader_seek_ok_aux c lookup st path input h1 h2
  · intro h
    unfold Client.WriteReader
    rw [if_pos h]

/-- Witness for C4: a reader whose seek errors is rejected with the
seek-failure error, also on a local path. -/
theorem writeReader_seek_contract_witness :
    ((some "boom" : Option String) ≠ none ∨ (0 : Int) ≠ 0) ∧
    Client.WriteReader DefaultClient (fun _ => Except.ok defaultLocation)
        ⟨[], []⟩ ['f'] ⟨some "boom", 0, []⟩ =
      Except.error (PathioError.seekFailed 0 (some "boom")) := by
  refine ⟨Or.inl (by simp), ?_⟩
  exact (writeReader_seek_contract DefaultClient (fun _ => Except.ok defaultLocation)
    ⟨[], []⟩ ['f'] ⟨some "boom", 0, []⟩).2 (Or.inl (by simp))

theorem writeToS3_fields (s3Conn : s3Connection) (input : ReadSeeker)
    (d : Bool) :
    (writeToS3 s3Conn input d).Bucket = s3Conn.bucket ∧
    (writeToS3 s3Conn input d).Key = s3Conn.key ∧
    (writeToS3 s3Conn input d).Body = input.data := by
  cases d <;> exact ⟨rfl, rfl, rfl⟩

/-- C8: a successful Write of bytes b to a path, Local or Remote, followed
by a Read of the same path through the same client, yields exactly b: the
layer transmits the body untransformed. -/
theorem write_read_roundtrip :
    ∀ (c : Client) (lookup : List Char → Except String (List Char))
      (st st2 : Store) (path : List Char) (b : List Nat),
      Client.Write c lookup st path b = Except.ok st2 →
      Client.Reader c lookup st2 path = Except.ok b := by
  intro c lookup st st2 path b h
  unfold Client.Write Client.WriteReader at h
  rw [if_neg (by simp [bytesNewReader])] at h
  by_cases hs : isS3Path path = true
  · simp only [hs, if_true] at h
    cases hc : s3ConnectionInformation lookup c.Region path with
    | error e =>
      simp only [hc] at h
      simp at h
    | ok s3Conn =>
      simp only [hc] at h
      injection h with h2
      subst h2
      obtain ⟨hB, hK, hD⟩ :=
        writeToS3_fields s3Conn (bytesNewReader b) c.disableS3Encryption
      unfold Client.Reader
      simp only [hs, if_true, hc]
      simp only [bytesNewReader] at hB hK hD
      simp [s3FileReader, putObject, alookup, bytesNewReader, hB, hK, hD]
  · simp only [hs, if_false] at h
    injection h with h2
    subst h2
    unfold Client.Reader
    simp [hs, writeToLocalFile, alookup, bytesNewReader]

/-- Witness for C8: write then read of [1, 2, 3] at a local path. -/
theorem write_read_roundtrip_witness :
    Client.Write DefaultClient (fun _ => Except.ok defaultLocation) ⟨[], []⟩
        ['f'] [1, 2, 3] =
      Except.ok ⟨[], [(['f'], [1, 2, 3])]⟩ ∧
    Client.Reader DefaultClient (fun _ => Except.ok defaultLocation)
        ⟨[], [(['f'], [1, 2, 3])]⟩ ['f'] = Except.ok [1, 2, 3] := by
  have h1 : Client.Write DefaultClient (fun _ => Except.ok defaultLocation)
      ⟨[], []⟩ ['f'] [1, 2, 3] = Except.ok ⟨[], [(['f'], [1, 2, 3])]⟩ := by
    decide
  exact ⟨h1, write_read_roundtrip DefaultClient (fun _ => Except.ok defaultLocation)
    ⟨[], []⟩ ⟨[], [(['f'], [1, 2, 3])]⟩ ['f'] [1, 2, 3] h1⟩

/-- C10: Write on a byte slice is exactly WriteReader over a fresh
in-memory reader positioned at the start, and therefore can never fail
with the seek-failure error. -/
theorem write_refines_writeReader :
    ∀ (c : Client) (lookup : List Char → Except String (List Char)) (st : Store)
      (path : List Char) (b : List Nat),
      Client.Write c lookup st path b =
        Client.WriteReader c lookup st path (bytesNewReader b) ∧
      isSeekFailure (Client.Write c lookup st path b) = false := by
  intro c lookup st path b
  exact ⟨rfl, writeReader_seek_ok_aux c lookup st path (bytesNewReader b) rfl rfl⟩
